import Mathlib

/-!
Verification development for a RAG (retrieval-augmented generation) pipeline:
a shallow embedding in Lean 4 of the chunking, vector-database and
chat-answering modules, together with theorems about the embedded code.

Texts are modelled as `List Char` (chunker level) or `String` (database and
chat level); floating-point vector components and distances are modelled as
exact rationals; Python dictionaries holding metadata are modelled as
association lists; Python exceptions are modelled with `Except String`.
-/

/-! ## Chunker (pdf_handler.py: PDFHandler.clean_text, PDFHandler.chunk_text) -/

/-- Python whitespace test used by the regex class backslash-s. -/
def isPySpace (c : Char) : Bool := c.isWhitespace

/-- Regex word character (backslash-w): alphanumeric or underscore. -/
def isWordChar (c : Char) : Bool := c.isAlphanum || c = '_'

/-- Punctuation kept by clean_text: . , ! ? ; : ( ) - -/
def isKeptPunct (c : Char) : Bool :=
  c = '.' || c = ',' || c = '!' || c = '?' || c = ';' || c = ':' ||
  c = '(' || c = ')' || c = '-'

/-- Characters kept by the second substitution in clean_text. -/
def keepChar (c : Char) : Bool := isWordChar c || isPySpace c || isKeptPunct c

/-- Replace every maximal run of whitespace by a single space
(first substitution in clean_text).  The flag records whether the previous
character was part of a whitespace run. -/
def collapseWs : Bool → List Char → List Char
  | _, [] => []
  | prev, c :: rest =>
    if isPySpace c then
      if prev then collapseWs true rest else ' ' :: collapseWs true rest
    else c :: collapseWs false rest

/-- Python str.strip(): drop whitespace from both ends. -/
def stripList (l : List Char) : List Char :=
  ((l.dropWhile isPySpace).reverse.dropWhile isPySpace).reverse

/-- PDFHandler.clean_text: collapse whitespace runs, drop characters outside
the allow-list, strip. -/
def clean_text (l : List Char) : List Char :=
  stripList ((collapseWs false l).filter keepChar)

/-- Python text[a:b] for 0 <= a <= b (clamping at the end of the list). -/
def pySlice (l : List Char) (a b : Nat) : List Char := (l.drop a).take (b - a)

/-- Python str.rfind: index of the last occurrence of c, or -1 if absent. -/
def rfindChar (l : List Char) (c : Char) : Int :=
  match l.reverse.findIdx? (· == c) with
  | some i => (l.length : Int) - 1 - (i : Int)
  | none => -1

/-- max(last period, last question mark, last exclamation mark) in a window. -/
def sentenceEnd (window : List Char) : Int :=
  max (max (rfindChar window '.') (rfindChar window '?')) (rfindChar window '!')

/-- The end offset of the chunk starting at start: the raw window end
start + cs, truncated at the last sentence boundary when the window does not
reach the end of the text and that boundary lies past the halfway point. -/
def chunkEnd (cs : Nat) (text : List Char) (start : Nat) : Nat :=
  let end0 := start + cs
  if end0 < text.length then
    let se := sentenceEnd (pySlice text start end0)
    if ((cs / 2 : Nat) : Int) < se then start + se.toNat + 1 else end0
  else end0

/-- One emitted chunk: stripped window text, absolute offsets, 0-based id. -/
structure ChunkData where
  text : List Char
  start_pos : Nat
  end_pos : Nat
  chunk_id : Nat
deriving DecidableEq, Repr

/-- The while-loop of chunk_text.  The fuel argument only bounds the number
of iterations; with the parameters used in this development every iteration
strictly advances start, so a fuel of text.length + 1 is never exhausted. -/
def chunkLoop (cs co : Nat) (text : List Char) : Nat → Nat → Nat → List ChunkData
  | _, _, 0 => []
  | s, cid, fuel + 1 =>
    if s < text.length then
      let e := chunkEnd cs text s
      ⟨stripList (pySlice text s e), s, e, cid⟩ ::
        chunkLoop cs co text (e - co) (cid + 1) fuel
    else []

/-- PDFHandler.chunk_text: clean the text, then emit overlapping chunks. -/
def chunk_text (cs co : Nat) (text : List Char) : List ChunkData :=
  let t := clean_text text
  chunkLoop cs co t 0 0 (t.length + 1)

/-! ## List helper lemmas -/

theorem dropWhile_head?_false {α : Type} (p : α → Bool) :
    ∀ (l : List α) (a : α), (l.dropWhile p).head? = some a → p a = false := by
  intro l
  induction l with
  | nil => intro a h; simp [List.dropWhile] at h
  | cons c t ih =>
    intro a h
    rw [List.dropWhile_cons] at h
    by_cases hc : p c
    · rw [if_pos hc] at h; exact ih a h
    · rw [if_neg hc] at h
      simp only [List.head?_cons, Option.some.injEq] at h
      exact h ▸ (Bool.not_eq_true _).mp hc

theorem dropWhile_twice {α : Type} (p : α → Bool) (l : List α) :
    (l.dropWhile p).dropWhile p = l.dropWhile p := by
  cases h : l.dropWhile p with
  | nil => simp
  | cons a t =>
    have ha : p a = false := dropWhile_head?_false p l a (by rw [h]; rfl)
    simp [List.dropWhile_cons, ha]

theorem dropWhile_eq_self_of_head {α : Type} (p : α → Bool) (l : List α)
    (h : ∀ a, l.head? = some a → p a = false) : l.dropWhile p = l := by
  cases l with
  | nil => rfl
  | cons a t => simp [List.dropWhile_cons, h a rfl]

theorem getLast?_dropWhile {α : Type} (p : α → Bool) :
    ∀ (l : List α) (a : α), (l.dropWhile p).getLast? = some a → l.getLast? = some a := by
  intro l
  induction l with
  | nil => intro a h; simp [List.dropWhile] at h
  | cons c t ih =>
    intro a h
    rw [List.dropWhile_cons] at h
    by_cases hc : p c
    · rw [if_pos hc] at h
      have ht := ih a h
      cases t with
      | nil => simp at ht
      | cons b u => rw [List.getLast?_cons_cons]; exact ht
    · rw [if_neg hc] at h; exact h

theorem stripList_idem (l : List Char) : stripList (stripList l) = stripList l := by
  unfold stripList
  set A := l.dropWhile isPySpace with hA
  set B := A.reverse.dropWhile isPySpace with hB
  have h1 : B.reverse.dropWhile isPySpace = B.reverse := by
    apply dropWhile_eq_self_of_head
    intro a ha
    rw [List.head?_reverse] at ha
    have h2 := getLast?_dropWhile isPySpace A.reverse a (hB ▸ ha)
    rw [List.getLast?_reverse] at h2
    exact dropWhile_head?_false isPySpace l a (hA ▸ h2)
  rw [h1, List.reverse_reverse, hB, dropWhile_twice]

theorem stripList_clean_text (t : List Char) :
    stripList (clean_text t) = clean_text t := by
  unfold clean_text
  exact stripList_idem _

/-! ## Facts about the chunk window end and the loop -/

/-- Case analysis on chunkEnd with the default chunk size 1000: either the
sentence-boundary truncation does not fire and the end is the raw window end
start + 1000, or it fires and the end is start + n + 1 for a boundary index
n past the halfway point 500. -/
theorem chunkEnd_cases (T : List Char) (s : Nat) :
    (¬ (s + 1000 < T.length ∧
          ((1000 / 2 : Nat) : Int) < sentenceEnd (pySlice T s (s + 1000))) ∧
        chunkEnd 1000 T s = s + 1000) ∨
    ((s + 1000 < T.length ∧
          ((1000 / 2 : Nat) : Int) < sentenceEnd (pySlice T s (s + 1000))) ∧
        ∃ n : Nat, chunkEnd 1000 T s = s + n + 1 ∧ 501 ≤ n) := by
  unfold chunkEnd
  by_cases h1 : s + 1000 < T.length
  · by_cases h2 : ((1000 / 2 : Nat) : Int) < sentenceEnd (pySlice T s (s + 1000))
    · right
      refine ⟨⟨h1, h2⟩, (sentenceEnd (pySlice T s (s + 1000))).toNat, ?_, by omega⟩
      simp only [if_pos h1, if_pos h2]
    · left
      exact ⟨fun hc => h2 hc.2, by simp only [if_pos h1, if_neg h2]⟩
  · left
    exact ⟨fun hc => h1 hc.1, by simp only [if_neg h1]⟩

theorem chunkEnd_lb (T : List Char) (s : Nat) : s + 502 ≤ chunkEnd 1000 T s := by
  rcases chunkEnd_cases T s with ⟨-, he⟩ | ⟨-, n, he, hn⟩ <;> omega

theorem chunkLoop_head_start (cs co : Nat) (T : List Char)
    (fuel s cid : Nat) (b : ChunkData)
    (h : (chunkLoop cs co T s cid fuel).head? = some b) : b.start_pos = s := by
  cases fuel with
  | zero => simp [chunkLoop] at h
  | succ f =>
    rw [chunkLoop] at h
    by_cases hs : s < T.length
    · rw [if_pos hs] at h
      simp only [List.head?_cons, Option.some.injEq] at h
      rw [← h]
    · rw [if_neg hs] at h; simp at h

/-- Every position of the cleaned text from the current window start onward
is covered by some emitted chunk span. -/
theorem chunkLoop_cover (T : List Char) :
    ∀ (fuel s cid p : Nat), T.length - s < fuel → s ≤ p → p < T.length →
      ∃ ch ∈ chunkLoop 1000 200 T s cid fuel,
        ch.start_pos ≤ p ∧ p < ch.end_pos := by
  intro fuel
  induction fuel with
  | zero => intro s cid p hf; omega
  | succ f ih =>
    intro s cid p hf hsp hp
    have hs : s < T.length := lt_of_le_of_lt hsp hp
    rw [chunkLoop, if_pos hs]
    by_cases hpe : p < chunkEnd 1000 T s
    · exact ⟨_, List.mem_cons_self _ _, hsp, hpe⟩
    · have he := chunkEnd_lb T s
      obtain ⟨ch, hmem, hch⟩ :=
        ih (chunkEnd 1000 T s - 200) (cid + 1) p (by omega) (by omega) hp
      exact ⟨ch, List.mem_cons_of_mem _ hmem, hch⟩

/-- Every consecutive pair of emitted chunks overlaps by (exactly) the
chunk overlap: the next chunk starts 200 positions before the previous
chunk's end. -/
theorem chunkLoop_chain (T : List Char) :
    ∀ (fuel s cid : Nat),
      List.Chain' (fun a b : ChunkData => b.start_pos + 200 ≤ a.end_pos)
        (chunkLoop 1000 200 T s cid fuel) := by
  intro fuel
  induction fuel with
  | zero => intro s cid; simp [chunkLoop]
  | succ f ih =>
    intro s cid
    rw [chunkLoop]
    by_cases hs : s < T.length
    · rw [if_pos hs]
      rw [List.chain'_cons']
      refine ⟨?_, ih _ _⟩
      intro b hb
      have hstart :=
        chunkLoop_head_start 1000 200 T f (chunkEnd 1000 T s - 200) (cid + 1) b
          (Option.mem_def.mp hb)
      have hlb := chunkEnd_lb T s
      simp only [hstart]
      omega
    · rw [if_neg hs]; simp

/-- If the window start is at or past the end of the text, the loop stops. -/
theorem chunkLoop_stop (cs co : Nat) (T : List Char) (fuel s cid : Nat)
    (h : ¬ s < T.length) : chunkLoop cs co T s cid fuel = [] := by
  cases fuel with
  | zero => rfl
  | succ f => rw [chunkLoop, if_neg h]

/-! ## Claim C1 -/

set_option maxRecDepth 100000 in
/-- C1 counterexample: the claim that every text whose cleaned form has
length at most 1000 yields exactly one chunk is false: 801 copies of the
letter a (cleaned length 801, at most 1000) yield two chunks, because the
next window start 1000 - 200 = 800 is still inside the text. -/
theorem claim_C1_cex :
    ¬ (∀ t : List Char, (clean_text t).length ≤ 1000 →
        ∃ c : ChunkData, chunk_text 1000 200 t = [c] ∧ c.text = clean_text t) := by
  intro h
  obtain ⟨c, hc, -⟩ := h (List.replicate 801 'a') (by decide)
  have h2 : (chunk_text 1000 200 (List.replicate 801 'a')).length = 2 := by decide
  rw [hc] at h2
  simp at h2

/-- C1 (amended): for every input text whose cleaned form is nonempty and
has length at most chunk size minus chunk overlap (1000 - 200 = 800),
chunk_text returns exactly one chunk, and that chunk's text equals the
cleaned input. -/
theorem claim_C1_amended (t : List Char)
    (h1 : 1 ≤ (clean_text t).length) (h2 : (clean_text t).length ≤ 800) :
    chunk_text 1000 200 t = [⟨clean_text t, 0, 1000, 0⟩] := by
  have hT := stripList_clean_text t
  simp only [chunk_text]
  obtain ⟨L, hL⟩ : ∃ L, (clean_text t).length = L + 1 := ⟨(clean_text t).length - 1, by omega⟩
  rw [hL, chunkLoop, if_pos (by omega : 0 < (clean_text t).length)]
  have he : chunkEnd 1000 (clean_text t) 0 = 1000 := by
    unfold chunkEnd
    rw [if_neg (by omega : ¬ 0 + 1000 < (clean_text t).length)]
  rw [he]
  have hslice : pySlice (clean_text t) 0 1000 = clean_text t := by
    unfold pySlice
    rw [List.drop_zero]
    exact List.take_of_length_le (by omega)
  simp only [hslice, hT,
    chunkLoop_stop 1000 200 (clean_text t) (L + 1) (1000 - 200) (0 + 1) (by omega)]

/-- C1 witness: a concrete three-character text (cleaned length 3, between
1 and 800) yields exactly the single chunk predicted by the theorem. -/
theorem claim_C1_witness :
    chunk_text 1000 200 ['a', 'b', '.'] = [⟨clean_text ['a', 'b', '.'], 0, 1000, 0⟩] :=
  claim_C1_amended ['a', 'b', '.'] (by decide) (by decide)

/-! ## Claim C4 -/

/-- C4: the chunk spans cover every position of the cleaned text, and each
consecutive pair of chunks overlaps by at least the chunk overlap 200 (in
fact the next chunk always starts exactly 200 before the previous end, with
or without sentence-boundary truncation). -/
theorem claim_C4 (t : List Char) :
    (∀ p, p < (clean_text t).length →
      ∃ ch ∈ chunk_text 1000 200 t, ch.start_pos ≤ p ∧ p < ch.end_pos) ∧
    List.Chain' (fun a b : ChunkData => b.start_pos + 200 ≤ a.end_pos)
      (chunk_text 1000 200 t) := by
  constructor
  · intro p hp
    exact chunkLoop_cover (clean_text t) ((clean_text t).length + 1) 0 0 p
      (by omega) (Nat.zero_le p) hp
  · exact chunkLoop_chain (clean_text t) ((clean_text t).length + 1) 0 0

/-- C4 witness: at the concrete one-character input, position 0 of the
cleaned text is covered by a chunk, and the chain property holds. -/
theorem claim_C4_witness :
    (∃ ch ∈ chunk_text 1000 200 ['a'], ch.start_pos ≤ 0 ∧ 0 < ch.end_pos) ∧
    List.Chain' (fun a b : ChunkData => b.start_pos + 200 ≤ a.end_pos)
      (chunk_text 1000 200 ['a']) :=
  ⟨(claim_C4 ['a']).1 0 (by decide), (claim_C4 ['a']).2⟩

/-! ## Claim C8 -/

/-- C8: with the default parameters 1000 and 200, every loop iteration
strictly advances the window start (so the chunking loop terminates): by
exactly 1000 - 200 = 800 when no sentence-boundary truncation applies, and
by more than 1000 / 2 - 200 = 300 when one does. -/
theorem claim_C8 (t : List Char) (s : Nat) (_hs : s < (clean_text t).length) :
    s < chunkEnd 1000 (clean_text t) s - 200 ∧
    (¬ (s + 1000 < (clean_text t).length ∧
        ((1000 / 2 : Nat) : Int) <
          sentenceEnd (pySlice (clean_text t) s (s + 1000))) →
      chunkEnd 1000 (clean_text t) s - 200 = s + 800) ∧
    ((s + 1000 < (clean_text t).length ∧
        ((1000 / 2 : Nat) : Int) <
          sentenceEnd (pySlice (clean_text t) s (s + 1000))) →
      s + 300 < chunkEnd 1000 (clean_text t) s - 200) := by
  rcases chunkEnd_cases (clean_text t) s with ⟨hnc, he⟩ | ⟨hc, n, he, hn⟩
  · exact ⟨by omega, fun _ => by omega, fun h => absurd h hnc⟩
  · exact ⟨by omega, fun h => absurd hc h, fun _ => by omega⟩

/-- C8 witness: at the concrete one-character input and window start 0, the
advance facts hold. -/
theorem claim_C8_witness :
    0 < chunkEnd 1000 (clean_text ['a']) 0 - 200 ∧
    (¬ (0 + 1000 < (clean_text ['a']).length ∧
        ((1000 / 2 : Nat) : Int) <
          sentenceEnd (pySlice (clean_text ['a']) 0 (0 + 1000))) →
      chunkEnd 1000 (clean_text ['a']) 0 - 200 = 0 + 800) ∧
    ((0 + 1000 < (clean_text ['a']).length ∧
        ((1000 / 2 : Nat) : Int) <
          sentenceEnd (pySlice (clean_text ['a']) 0 (0 + 1000))) →
      0 + 300 < chunkEnd 1000 (clean_text ['a']) 0 - 200) :=
  claim_C8 ['a'] 0 (by decide)

/-! ## Vector database (vector_db.py: VectorDatabase) -/

/-- A Python dictionary value stored in a metadata record: a string or an
integer. -/
inductive PyVal where
  | str (s : String)
  | int (n : Int)
deriving DecidableEq, Repr, Inhabited

/-- A metadata record: a Python dict modelled as an association list. -/
abbrev MetaRec := List (String × PyVal)

/-- An embedding vector; floating-point components are modelled as exact
rationals. -/
abbrev Vec := List ℚ

/-- A document chunk as handed to add_documents: the dict produced by the
chunker (text, start_pos, end_pos, chunk_id) merged with the caller-supplied
metadata (source, title, num_pages). -/
structure Chunk where
  text : String
  start_pos : Nat
  end_pos : Nat
  chunk_id : Nat
  source : String
  title : String
  num_pages : Nat
deriving DecidableEq, Repr

/-- The metadata record stored by add_documents for one chunk: exactly the
keys source, chunk_id (coerced to a string) and title. -/
def chunkMeta (c : Chunk) : MetaRec :=
  [("source", PyVal.str c.source),
   ("chunk_id", PyVal.str (toString c.chunk_id)),
   ("title", PyVal.str c.title)]

/-- The three durable artifact files (faiss.index, documents.pkl,
metadata.pkl); none means the file is absent. -/
structure Disk where
  indexFile : Option (List Vec)
  docsFile : Option (List String)
  metaFile : Option (List MetaRec)
deriving DecidableEq, Repr

/-- The VectorDatabase state: the FAISS flat index is modelled as the list
of stored vectors (none when self.index is None), plus the two parallel
containers, the collection name and the on-disk mirror. -/
structure DBState where
  index : Option (List Vec)
  documents : List String
  metadatas : List MetaRec
  collection_name : Option String
  disk : Disk
deriving DecidableEq, Repr

/-- State after __init__ on a fresh persist directory. -/
def initState : DBState :=
  { index := none, documents := [], metadatas := [], collection_name := none,
    disk := ⟨none, none, none⟩ }

/-- VectorDatabase.create_collection: load the three artifacts when the
index file exists (any load failure, modelled as a missing companion file,
falls back to a fresh empty index), otherwise create a fresh empty index. -/
def create_collection (st : DBState) (name : String) : DBState :=
  let st := { st with collection_name := some name }
  match st.disk.indexFile with
  | some ix =>
    match st.disk.docsFile, st.disk.metaFile with
    | some ds, some ms => { st with index := some ix, documents := ds, metadatas := ms }
    | _, _ => { st with index := some [], documents := [], metadatas := [] }
  | none => { st with index := some [], documents := [], metadatas := [] }

/-- VectorDatabase.add_documents: auto-create the collection when the index
is uninitialized, embed every chunk's text (the per-call embedding function
embF models get_batch_embeddings), append vectors, texts and metadata to
the three parallel containers, then persist all three artifacts. -/
def add_documents (st : DBState) (chunks : List Chunk) (embF : String → Vec)
    (name : String) : DBState :=
  let st := if st.index = none then create_collection st name else st
  let texts := chunks.map (·.text)
  let ix := st.index.getD [] ++ texts.map embF
  let docs := st.documents ++ texts
  let metas := st.metadatas ++ chunks.map chunkMeta
  { st with
    index := some ix
    documents := docs
    metadatas := metas
    disk := ⟨some ix, some docs, some metas⟩ }

/-- Squared Euclidean distance, the metric of faiss.IndexFlatL2.  The
embedding model has a fixed dimension, so zipping truncates nothing. -/
def sqDist (u v : Vec) : ℚ := ((u.zip v).map (fun p => (p.1 - p.2) ^ 2)).sum

/-- Ascending-distance order on (index, distance) pairs with ties on equal
distance broken by index-insertion order. -/
def distLe (a b : Nat × ℚ) : Prop := a.2 < b.2 ∨ (a.2 = b.2 ∧ a.1 ≤ b.1)

instance : DecidableRel distLe := fun a b =>
  inferInstanceAs (Decidable (a.2 < b.2 ∨ (a.2 = b.2 ∧ a.1 ≤ b.1)))

instance : IsTrans (Nat × ℚ) distLe where
  trans a b c hab hbc := by
    rcases hab with h | ⟨he, hi⟩ <;> rcases hbc with h' | ⟨he', hi'⟩
    · exact Or.inl (lt_trans h h')
    · exact Or.inl (he' ▸ h)
    · exact Or.inl (he ▸ h')
    · exact Or.inr ⟨he.trans he', le_trans hi hi'⟩

instance : IsTotal (Nat × ℚ) distLe where
  total a b := by
    rcases lt_trichotomy a.2 b.2 with h | h | h
    · exact Or.inl (Or.inl h)
    · rcases le_total a.1 b.1 with hi | hi
      · exact Or.inl (Or.inr ⟨h, hi⟩)
      · exact Or.inr (Or.inr ⟨h.symm, hi⟩)
    · exact Or.inr (Or.inl h)

/-- faiss.IndexFlatL2.search, modelled from its documented contract (the
library is an external collaborator): exact brute-force k-nearest-neighbor
search by squared Euclidean distance, ascending, ties broken by
index-insertion order. -/
def faissSearch (vecs : List Vec) (q : Vec) (k : Nat) : List (Nat × ℚ) :=
  let scored := (List.range vecs.length).map (fun i => (i, sqDist (vecs.getD i []) q))
  (scored.insertionSort distLe).take k

/-- Result set of VectorDatabase.query. -/
structure QueryResult where
  documents : List String
  metadatas : List MetaRec
  distances : List ℚ
deriving DecidableEq, Repr

/-- VectorDatabase.query: empty result when the index is uninitialized or
the document list is empty; otherwise embed the query (embQ is the result
of get_embedding, which may fail), clamp the result count to the number of
documents, search, and join the results positionally. -/
def queryDB (st : DBState) (embQ : Except String Vec) (n_results : Nat) :
    Except String QueryResult :=
  if st.index.isNone || st.documents.isEmpty then
    Except.ok ⟨[], [], []⟩
  else do
    let q ← embQ
    let k := min n_results st.documents.length
    let res := faissSearch (st.index.getD []) q k
    Except.ok ⟨res.map (fun p => st.documents.getD p.1 ""),
               res.map (fun p => st.metadatas.getD p.1 []),
               res.map (·.2)⟩

/-- VectorDatabase.delete_collection: remove every artifact file that
exists and clear the in-memory state.  File removal is modelled as always
succeeding (failures are caught and only printed in the source). -/
def delete_collection (_st : DBState) (_name : String) : DBState :=
  { index := none, documents := [], metadatas := [], collection_name := none,
    disk := ⟨none, none, none⟩ }

/-- VectorDatabase.get_collection_count. -/
def get_collection_count (st : DBState) : Nat := st.documents.length

/-- VectorDatabase.reset_database: delete the (default-named) collection. -/
def reset_database (st : DBState) : DBState := delete_collection st "documents"

/-- Number of vectors held by the index (faiss ntotal; 0 when
uninitialized). -/
def indexCount (st : DBState) : Nat := (st.index.getD []).length

/-! ## Reachable database states and the alignment invariant (C2) -/

/-- States reachable from a fresh database by any sequence of the five
public operations.  The add step carries the claim's assumption that every
embedding returned has the fixed dimension 384. -/
inductive Reach : DBState → Prop where
  | init : Reach initState
  | create (st : DBState) (name : String) : Reach st → Reach (create_collection st name)
  | add (st : DBState) (chunks : List Chunk) (embF : String → Vec) (name : String) :
      Reach st → (∀ s, (embF s).length = 384) → Reach (add_documents st chunks embF name)
  | query (st : DBState) (embQ : Except String Vec) (k : Nat) : Reach st → Reach st
  | del (st : DBState) (name : String) : Reach st → Reach (delete_collection st name)
  | reset (st : DBState) : Reach st → Reach (reset_database st)

/-- The three parallel containers all arise, position by position, from one
common history of added chunks and the vectors returned for them. -/
def chunkHistOK (docs : List String) (metas : List MetaRec) (vecs : List Vec) : Prop :=
  ∃ hist : List (Chunk × Vec),
    docs = hist.map (fun h => h.1.text) ∧
    metas = hist.map (fun h => chunkMeta h.1) ∧
    vecs = hist.map (fun h => h.2)

/-- The on-disk mirror is either absent or holds one consistent snapshot. -/
def DiskOK (d : Disk) : Prop :=
  (d.indexFile = none ∧ d.docsFile = none ∧ d.metaFile = none) ∨
  (∃ vs ds ms, d.indexFile = some vs ∧ d.docsFile = some ds ∧ d.metaFile = some ms ∧
    chunkHistOK ds ms vs)

/-- Combined induction invariant. -/
def StateOK (st : DBState) : Prop :=
  chunkHistOK st.documents st.metadatas (st.index.getD []) ∧ DiskOK st.disk

theorem chunkHistOK_nil : chunkHistOK [] [] [] := ⟨[], rfl, rfl, rfl⟩

theorem StateOK_create (st : DBState) (name : String) (h : StateOK st) :
    StateOK (create_collection st name) := by
  obtain ⟨-, hd⟩ := h
  unfold create_collection
  rcases hd with ⟨h1, h2, h3⟩ | ⟨vs, ds, ms, h1, h2, h3, hok⟩
  · simp only [h1]
    exact ⟨chunkHistOK_nil, Or.inl ⟨h1, h2, h3⟩⟩
  · simp only [h1, h2, h3]
    exact ⟨hok, Or.inr ⟨vs, ds, ms, h1, h2, h3, hok⟩⟩

theorem StateOK_add (st : DBState) (chunks : List Chunk) (embF : String → Vec)
    (name : String) (h : StateOK st) :
    StateOK (add_documents st chunks embF name) := by
  unfold add_documents
  set st' := if st.index = none then create_collection st name else st with hst'
  have h' : StateOK st' := by
    rw [hst']
    split
    · exact StateOK_create st name h
    · exact h
  obtain ⟨⟨hist, hdocs, hmetas, hvecs⟩, -⟩ := h'
  have hnew : chunkHistOK
      (st'.documents ++ chunks.map (·.text))
      (st'.metadatas ++ chunks.map chunkMeta)
      (st'.index.getD [] ++ (chunks.map (·.text)).map embF) := by
    refine ⟨hist ++ chunks.map (fun c => (c, embF c.text)), ?_, ?_, ?_⟩
    · rw [List.map_append, List.map_map, hdocs]; rfl
    · rw [List.map_append, List.map_map, hmetas]; rfl
    · rw [List.map_append, List.map_map, List.map_map, hvecs]; rfl
  exact ⟨hnew, Or.inr ⟨_, _, _, rfl, rfl, rfl, hnew⟩⟩

theorem StateOK_del (st : DBState) (name : String) :
    StateOK (delete_collection st name) :=
  ⟨chunkHistOK_nil, Or.inl ⟨rfl, rfl, rfl⟩⟩

theorem Reach_StateOK (st : DBState) (h : Reach st) : StateOK st := by
  induction h with
  | init => exact ⟨chunkHistOK_nil, Or.inl ⟨rfl, rfl, rfl⟩⟩
  | create st name _ ih => exact StateOK_create st name ih
  | add st chunks embF name _ _ ih => exact StateOK_add st chunks embF name ih
  | query st embQ k _ ih => exact ih
  | del st name _ _ => exact StateOK_del st name
  | reset st _ _ => exact StateOK_del st "documents"

/-- C2: in every reachable state the three parallel containers stay
aligned - the document list, the metadata list and the index hold the same
number of entries - and position by position they all describe the same
added chunk (its text, its stored metadata record, and the vector returned
for it by the embedding call). -/
theorem claim_C2 (st : DBState) (h : Reach st) :
    st.documents.length = st.metadatas.length ∧
    st.metadatas.length = indexCount st ∧
    chunkHistOK st.documents st.metadatas (st.index.getD []) := by
  obtain ⟨⟨hist, hdocs, hmetas, hvecs⟩, -⟩ := Reach_StateOK st h
  refine ⟨?_, ?_, hist, hdocs, hmetas, hvecs⟩
  · rw [hdocs, hmetas, List.length_map, List.length_map]
  · rw [hmetas, List.length_map]
    unfold indexCount
    rw [hvecs, List.length_map]

/-- Fixed embedding function used by witnesses: the all-zero vector of the
model dimension 384. -/
def embF0 : String → Vec := fun _ => List.replicate 384 (0 : ℚ)

/-- Sample chunk used by witnesses. -/
def chunk0 : Chunk :=
  { text := "hello world", start_pos := 0, end_pos := 1000, chunk_id := 0,
    source := "doc.pdf", title := "Doc", num_pages := 1 }

/-- C2 witness: the alignment invariant holds at the concrete reachable
state obtained by adding one chunk to a fresh database. -/
theorem claim_C2_witness :
    (add_documents initState [chunk0] embF0 "documents").documents.length =
      (add_documents initState [chunk0] embF0 "documents").metadatas.length ∧
    (add_documents initState [chunk0] embF0 "documents").metadatas.length =
      indexCount (add_documents initState [chunk0] embF0 "documents") ∧
    chunkHistOK (add_documents initState [chunk0] embF0 "documents").documents
      (add_documents initState [chunk0] embF0 "documents").metadatas
      ((add_documents initState [chunk0] embF0 "documents").index.getD []) :=
  claim_C2 _ (Reach.add initState [chunk0] embF0 "documents" Reach.init
    (fun _ => List.length_replicate 384 0))

/-! ## Claim C6 -/

/-- C6: query on an uninitialized index or an empty document list returns
the empty result set and raises no error, whatever the embedding call
would have produced. -/
theorem claim_C6 (st : DBState) (h : st.index = none ∨ st.documents = [])
    (embQ : Except String Vec) (k : Nat) :
    queryDB st embQ k = Except.ok ⟨[], [], []⟩ := by
  unfold queryDB
  rcases h with h | h <;> simp [h]

/-- C6 witness: the fresh database state is uninitialized, and query on it
returns the empty result even when the embedding call would have failed. -/
theorem claim_C6_witness :
    queryDB initState (Except.error "embedding service down") 5 =
      Except.ok ⟨[], [], []⟩ :=
  claim_C6 initState (Or.inl rfl) (Except.error "embedding service down") 5

/-! ## Claim C9 -/

/-- C9: reset_database is idempotent: after one call the collection count
is 0, all three durable artifact files are absent and the index is
uninitialized; a second consecutive call raises no error (it is a total
function in the model, as in the source, where missing files are skipped)
and leaves the same final state. -/
theorem claim_C9 (st : DBState) :
    get_collection_count (reset_database st) = 0 ∧
    (reset_database st).disk = ⟨none, none, none⟩ ∧
    (reset_database st).index = none ∧
    reset_database (reset_database st) = reset_database st := by
  exact ⟨rfl, rfl, rfl, rfl⟩

/-! ## Claim C3 -/

/-- C3: on a non-empty collection of n documents, query with requested
count k returns exactly min(k, n) (document, metadata, distance) triples;
the selected positions carry the true squared Euclidean distances of the
stored vectors to the query embedding, are pairwise distinct, are ordered
by ascending distance with ties on equal distance broken by
index-insertion order, and every unselected stored vector is at least as
far (or tied with a larger insertion index). -/
theorem claim_C3 (st : DBState) (vecs : List Vec) (q : Vec) (k : Nat)
    (hix : st.index = some vecs)
    (hlen : vecs.length = st.documents.length)
    (hm : st.metadatas.length = st.documents.length)
    (hne : st.documents ≠ []) :
    ∃ sel : List (Nat × ℚ),
      queryDB st (Except.ok q) k =
        Except.ok ⟨sel.map (fun p => st.documents.getD p.1 ""),
                   sel.map (fun p => st.metadatas.getD p.1 []),
                   sel.map (fun p => p.2)⟩ ∧
      sel.length = min k st.documents.length ∧
      (∀ p ∈ sel, p.1 < vecs.length ∧ p.2 = sqDist (vecs.getD p.1 []) q) ∧
      (sel.map Prod.fst).Nodup ∧
      List.Sorted distLe sel ∧
      (∀ p ∈ sel, ∀ j, j < vecs.length → j ∉ sel.map Prod.fst →
        distLe p (j, sqDist (vecs.getD j []) q)) := by
  have hguard : (st.index.isNone || st.documents.isEmpty) = false := by
    rw [hix]
    cases hd : st.documents with
    | nil => exact absurd hd hne
    | cons a t => rfl
  have hD : st.index.getD [] = vecs := by rw [hix]; rfl
  refine ⟨faissSearch vecs q (min k st.documents.length), ?_, ?_, ?_, ?_, ?_, ?_⟩
  · unfold queryDB
    rw [hguard, hD]
    rfl
  · unfold faissSearch
    rw [List.length_take, List.length_insertionSort, List.length_map,
      List.length_range, hlen]
    omega
  · intro p hp
    have hp' : p ∈ (List.range vecs.length).map
        (fun i => (i, sqDist (vecs.getD i []) q)) :=
      (List.mem_insertionSort distLe).mp (List.take_subset _ _ hp)
    obtain ⟨i, hi, hpi⟩ := List.mem_map.mp hp'
    rw [← hpi]
    exact ⟨List.mem_range.mp hi, rfl⟩
  · have hperm : ((((List.range vecs.length).map
        (fun i => (i, sqDist (vecs.getD i []) q))).insertionSort distLe).map
          Prod.fst).Nodup := by
      have h1 := (List.perm_insertionSort distLe
        ((List.range vecs.length).map (fun i => (i, sqDist (vecs.getD i []) q)))).map
          Prod.fst
      have h2 : (((List.range vecs.length).map
          (fun i => (i, sqDist (vecs.getD i []) q))).map Prod.fst) =
          List.range vecs.length := by
        rw [List.map_map]
        exact List.map_id _
      rw [h2] at h1
      exact h1.nodup_iff.mpr (List.nodup_range _)
    exact List.Nodup.sublist ((List.take_sublist _ _).map Prod.fst) hperm
  · exact List.Pairwise.sublist (List.take_sublist _ _)
      (List.sorted_insertionSort distLe _)
  · intro p hp j hj hjnot
    have hmem : (j, sqDist (vecs.getD j []) q) ∈
        ((List.range vecs.length).map
          (fun i => (i, sqDist (vecs.getD i []) q))).insertionSort distLe :=
      (List.mem_insertionSort distLe).mpr
        (List.mem_map.mpr ⟨j, List.mem_range.mpr hj, rfl⟩)
    have hpair : List.Pairwise distLe
        (((List.range vecs.length).map
          (fun i => (i, sqDist (vecs.getD i []) q))).insertionSort distLe) :=
      List.sorted_insertionSort distLe _
    rw [← List.take_append_drop (min k st.documents.length)
      (((List.range vecs.length).map
        (fun i => (i, sqDist (vecs.getD i []) q))).insertionSort distLe)]
      at hmem hpair
    rw [List.pairwise_append] at hpair
    rcases List.mem_append.mp hmem with hin | hin
    · exact absurd (List.mem_map.mpr ⟨_, hin, rfl⟩) hjnot
    · exact hpair.2.2 p hp _ hin

/-- Concrete one-document collection state used by several witnesses. -/
def stW : DBState :=
  { index := some [[1]], documents := ["a"],
    metadatas := [[("source", PyVal.str "s")]],
    collection_name := some "documents", disk := ⟨none, none, none⟩ }

/-- C3 witness: querying the concrete one-document collection with k = 5
returns min(5, 1) = 1 triple with all the stated ranking properties. -/
theorem claim_C3_witness :
    ∃ sel : List (Nat × ℚ),
      queryDB stW (Except.ok [0]) 5 =
        Except.ok ⟨sel.map (fun p => stW.documents.getD p.1 ""),
                   sel.map (fun p => stW.metadatas.getD p.1 []),
                   sel.map (fun p => p.2)⟩ ∧
      sel.length = min 5 stW.documents.length ∧
      (∀ p ∈ sel, p.1 < ([[1]] : List Vec).length ∧
        p.2 = sqDist (([[1]] : List Vec).getD p.1 []) [0]) ∧
      (sel.map Prod.fst).Nodup ∧
      List.Sorted distLe sel ∧
      (∀ p ∈ sel, ∀ j, j < ([[1]] : List Vec).length → j ∉ sel.map Prod.fst →
        distLe p (j, sqDist (([[1]] : List Vec).getD j []) [0])) :=
  claim_C3 stW [[1]] [0] 5 rfl rfl rfl (by decide)

/-! ## Chat bot (chat_bot.py: ChatBot) -/

/-- Python dict.get(key, default) on a metadata record. -/
def pyGet (m : MetaRec) (key : String) (dflt : PyVal) : PyVal :=
  match m.lookup key with
  | some v => v
  | none => dflt

/-- doc[:200] + ellipsis marker when the text is longer than 200
characters, the text itself otherwise. -/
def takePreview (doc : String) : String :=
  if doc.length > 200 then doc.take 200 ++ "..." else doc

/-- One element of the sources list of an answer. -/
structure Source where
  chunk_id : PyVal
  source : PyVal
  title : PyVal
  text_preview : String
  relevance_score : ℚ
deriving DecidableEq, Repr, Inhabited

/-- The dictionary returned by answer_question.  context_used and error are
optional because the source only puts those keys into the dictionary on
some paths; none models an absent key. -/
structure RagAnswer where
  answer : String
  sources : List Source
  context_used : Option Nat
  error : Option String
deriving DecidableEq, Repr

/-- ChatBot.create_rag_prompt. -/
def create_rag_prompt (question : String) (context_docs : List String) : String :=
  let context := String.intercalate "\n\n"
    (context_docs.enum.map (fun p => "Document " ++ toString (p.1 + 1) ++ ":\n" ++ p.2))
  "You are a helpful AI assistant. Answer the question based ONLY on the provided context. If the answer cannot be found in the context, say \"I don\x27t have enough information to answer this question based on the provided documents.\"\n\nContext:\n"
    ++ context ++ "\n\nQuestion: " ++ question
    ++ "\n\nProvide a clear, concise answer based on the context above."

/-- ChatBot.generate_response: call the opaque generation client (gen),
strip the returned text, and wrap any failure in an error message. -/
def generate_response (gen : String → Except String String) (prompt : String) :
    Except String String :=
  match gen prompt with
  | Except.ok s => Except.ok s.trim
  | Except.error e => Except.error ("Error generating response: " ++ e)

/-- The sources list assembled by answer_question from the query result:
enumerate the zipped documents and metadata records, defaulting missing
keys, previewing the text and converting distance to 1 - distance. -/
def buildSources (docs : List String) (metas : List MetaRec) (dists : List ℚ) :
    List Source :=
  (List.range (min docs.length metas.length)).map (fun i =>
    { chunk_id := pyGet (metas.getD i []) "chunk_id" (PyVal.int i),
      source := pyGet (metas.getD i []) "source" (PyVal.str "Unknown"),
      title := pyGet (metas.getD i []) "title" (PyVal.str "Unknown"),
      text_preview := takePreview (docs.getD i ""),
      relevance_score := 1 - dists.getD i 0 })

/-- The try-block of ChatBot.answer_question: retrieve, short-circuit on an
empty result, build the prompt, generate, assemble sources. -/
def answerBody (st : DBState) (question : String) (embQ : Except String Vec)
    (gen : String → Except String String) (n_context_docs : Nat) :
    Except String RagAnswer :=
  match queryDB st embQ n_context_docs with
  | Except.error e => Except.error e
  | Except.ok sr =>
    if sr.documents.isEmpty then
      Except.ok { answer := "No documents found in the database. Please upload a PDF first.",
                  sources := [], context_used := none, error := none }
    else
      let prompt := create_rag_prompt question sr.documents
      match generate_response gen prompt with
      | Except.error e => Except.error e
      | Except.ok answer =>
        Except.ok { answer := answer,
                    sources := buildSources sr.documents sr.metadatas sr.distances,
                    context_used := some sr.documents.length, error := none }

/-- ChatBot.answer_question: the try-block with its except-clause, which
converts any raised error into a returned record. -/
def answer_question (st : DBState) (question : String) (embQ : Except String Vec)
    (gen : String → Except String String) (n_context_docs : Nat) : RagAnswer :=
  match answerBody st question embQ gen n_context_docs with
  | Except.ok r => r
  | Except.error e =>
    { answer := "Error generating answer: " ++ e, sources := [],
      context_used := none, error := some e }

/-! ## Claim C5 -/

/-- C5: answer_question never raises - it always returns a record - and
whenever the try-block raises an error, the returned record carries the
error description in its answer field and an empty sources list. -/
theorem claim_C5 (st : DBState) (question : String) (embQ : Except String Vec)
    (gen : String → Except String String) (n : Nat) :
    (∃ r : RagAnswer, answer_question st question embQ gen n = r) ∧
    (∀ e, answerBody st question embQ gen n = Except.error e →
      answer_question st question embQ gen n =
        { answer := "Error generating answer: " ++ e, sources := [],
          context_used := none, error := some e }) := by
  refine ⟨⟨_, rfl⟩, ?_⟩
  intro e he
  unfold answer_question
  rw [he]

/-- A generation client that always fails, used by the C5 witness. -/
def genFail : String → Except String String := fun _ => Except.error "boom"

/-- C5 witness: on the concrete two-document collection, with a failing
generation client, answer_question returns the error-as-data record. -/
theorem claim_C5_witness :
    (∃ r : RagAnswer, answer_question stW "q" (Except.ok [0]) genFail 3 = r) ∧
    answer_question stW "q" (Except.ok [0]) genFail 3 =
      { answer := "Error generating answer: Error generating response: boom",
        sources := [], context_used := none,
        error := some "Error generating response: boom" } :=
  ⟨(claim_C5 stW "q" (Except.ok [0]) genFail 3).1,
   (claim_C5 stW "q" (Except.ok [0]) genFail 3).2 "Error generating response: boom"
     rfl⟩

/-! ## Claim C7 -/

/-- C7 counterexample: the claim that the returned record always carries a
context_used integer is false on the no-documents sentinel path: asking a
question against the fresh empty database yields the sentinel record, which
has no context_used key. -/
theorem claim_C7_cex :
    (answer_question initState "hi" (Except.ok []) (fun _ => Except.ok "x")
        3).context_used = none ∧
    (answer_question initState "hi" (Except.ok []) (fun _ => Except.ok "x")
        3).answer = "No documents found in the database. Please upload a PDF first." ∧
    (answer_question initState "hi" (Except.ok []) (fun _ => Except.ok "x")
        3).sources = [] :=
  ⟨rfl, rfl, rfl⟩

/-- C7 (amended): every record returned by answer_question has an answer
string and a sources sequence (whose elements carry chunk_id, source,
title, text_preview and relevance_score by construction), but carries a
context_used integer only on the successful generation path; the
no-documents sentinel record and the caught-exception record (which
additionally carries the error key) omit it. -/
theorem claim_C7_amended (st : DBState) (question : String)
    (embQ : Except String Vec) (gen : String → Except String String) (n : Nat) :
    ((answer_question st question embQ gen n).error = none ∧
     (answer_question st question embQ gen n).context_used = none ∧
     (answer_question st question embQ gen n).sources = [] ∧
     (answer_question st question embQ gen n).answer =
       "No documents found in the database. Please upload a PDF first.") ∨
    ((answer_question st question embQ gen n).error = none ∧
     ∃ k, (answer_question st question embQ gen n).context_used = some k) ∨
    (∃ e, (answer_question st question embQ gen n).error = some e ∧
     (answer_question st question embQ gen n).context_used = none ∧
     (answer_question st question embQ gen n).sources = [] ∧
     (answer_question st question embQ gen n).answer =
       "Error generating answer: " ++ e) := by
  unfold answer_question
  cases hb : answerBody st question embQ gen n with
  | error e =>
    right; right
    exact ⟨e, rfl, rfl, rfl, rfl⟩
  | ok r =>
    dsimp only
    unfold answerBody at hb
    cases hq : queryDB st embQ n with
    | error e =>
      rw [hq] at hb
      dsimp only at hb
      exact absurd hb (by simp)
    | ok sr =>
      rw [hq] at hb
      dsimp only at hb
      by_cases hempty : sr.documents.isEmpty
      · rw [if_pos hempty] at hb
        left
        rw [Except.ok.injEq] at hb
        rw [← hb]
        exact ⟨rfl, rfl, rfl, rfl⟩
      · rw [if_neg hempty] at hb
        cases hg : generate_response gen (create_rag_prompt question sr.documents) with
        | error e2 =>
          rw [hg] at hb
          dsimp only at hb
          exact absurd hb (by simp)
        | ok a =>
          rw [hg] at hb
          dsimp only at hb
          rw [Except.ok.injEq] at hb
          right; left
          rw [← hb]
          exact ⟨rfl, sr.documents.length, rfl⟩

/-! ## Claim C10 -/

/-- C10: every metadata record stored by add_documents has exactly the keys
source, chunk_id and title, in that order, with chunk_id coerced to a
string; the positional fields start_pos, end_pos and num_pages are not
stored; and the sources assembled by answer_question from such records
carry chunk_id as the string form of the integer the chunk was created
with. -/
theorem claim_C10 (c : Chunk) (i : Int) :
    (chunkMeta c).map Prod.fst = ["source", "chunk_id", "title"] ∧
    (chunkMeta c).lookup "chunk_id" = some (PyVal.str (toString c.chunk_id)) ∧
    (chunkMeta c).lookup "start_pos" = none ∧
    (chunkMeta c).lookup "end_pos" = none ∧
    (chunkMeta c).lookup "num_pages" = none ∧
    pyGet (chunkMeta c) "chunk_id" (PyVal.int i) = PyVal.str (toString c.chunk_id) ∧
    (∀ (docs : List String) (cs : List Chunk) (dists : List ℚ) (j : Nat),
      j < min docs.length cs.length →
      ((buildSources docs (cs.map chunkMeta) dists).getD j default).chunk_id =
        PyVal.str (toString ((cs.getD j c).chunk_id))) := by
  refine ⟨rfl, rfl, rfl, rfl, rfl, rfl, ?_⟩
  intro docs cs dists j hj
  have hlen2 : (cs.map chunkMeta).length = cs.length := List.length_map _ _
  have hblen : (buildSources docs (cs.map chunkMeta) dists).length =
      min docs.length (cs.map chunkMeta).length := by
    unfold buildSources
    rw [List.length_map, List.length_range]
  rw [List.getD_eq_getElem _ _ (by rw [hblen, hlen2]; omega)]
  unfold buildSources
  rw [List.getElem_map, List.getElem_range]
  have hmg : (cs.map chunkMeta).getD j [] = chunkMeta (cs.getD j c) := by
    rw [List.getD_eq_getElem _ _ (by rw [hlen2]; omega), List.getElem_map,
      List.getD_eq_getElem _ _ (by omega)]
  simp only [hmg]
  rfl

/-- C10 witness: at a concrete chunk and a concrete one-chunk ingestion,
the stored keys, the stringified chunk_id and the assembled source record
are as stated. -/
theorem claim_C10_witness :
    (chunkMeta chunk0).map Prod.fst = ["source", "chunk_id", "title"] ∧
    (chunkMeta chunk0).lookup "start_pos" = none ∧
    pyGet (chunkMeta chunk0) "chunk_id" (PyVal.int 0) =
      PyVal.str (toString chunk0.chunk_id) ∧
    ((buildSources ["hello world"] ([chunk0].map chunkMeta) [0]).getD 0
        default).chunk_id = PyVal.str (toString (([chunk0].getD 0 chunk0).chunk_id)) :=
  ⟨(claim_C10 chunk0 0).1, (claim_C10 chunk0 0).2.2.1,
   (claim_C10 chunk0 0).2.2.2.2.2.1,
   (claim_C10 chunk0 0).2.2.2.2.2.2 ["hello world"] [chunk0] [0] 0 (by decide)⟩
